import Mathlib

/-!
Verification development for the personal-assistant bot (src/mvp_bot.py and
src/appv1.py).  The temporal core is shallowly embedded: instants are seconds
on a linear timeline (timezone resolution and DST are outside the embedded
fragment; both sources do naive wall-clock arithmetic on a pytz-localised
`now`), and the relevant regular-expression searches of the source are
implemented character by character with Python `re.search` semantics
(leftmost position wins; greedy quantifiers; for the concrete patterns in the
source the greedy maximal-munch strategy is exact, because every quantified
class is disjoint from the character that must follow it, so backtracking can
never turn a failure into a success).
-/

namespace Assist

/-- Python `\s` on the inputs in scope: blank, tab, newline, carriage return. -/
def isWs (c : Char) : Bool := c = ' ' || c = '\t' || c = '\n' || c = '\r'

/-- Python `\d` restricted to ASCII digits (the only digits the inputs use). -/
def isDigitCh (c : Char) : Bool := '0' ≤ c && c ≤ '9'

/-- Match a literal character sequence at the head, returning the rest. -/
def matchLit : List Char → List Char → Option (List Char)
  | [], rest => some rest
  | _ :: _, [] => none
  | p :: ps, c :: cs => if p = c then matchLit ps cs else none

/-- Consume the maximal (possibly empty) whitespace run: `\s*`. -/
def dropWsAll : List Char → List Char
  | [] => []
  | c :: cs => if isWs c then dropWsAll cs else c :: cs

/-- Consume a non-empty maximal whitespace run: `\s+`. -/
def dropWs1 : List Char → Option (List Char)
  | [] => none
  | c :: cs => if isWs c then some (dropWsAll cs) else none

/-- Split off the maximal digit run at the head. -/
def takeDigits : List Char → List Char × List Char
  | [] => ([], [])
  | c :: cs =>
      if isDigitCh c then
        let p := takeDigits cs
        (c :: p.1, p.2)
      else ([], c :: cs)

/-- Numeric value of a digit run (`int(...)` on the captured group). -/
def digitsVal (l : List Char) : Nat := l.foldl (fun a c => a * 10 + (c.toNat - 48)) 0

/-- Does `needle` occur at the head of the text? -/
def leadsWith : List Char → List Char → Bool
  | [], _ => true
  | _ :: _, [] => false
  | p :: ps, c :: cs => p = c && leadsWith ps cs

/-- Python `needle in hay` substring containment. -/
def containsSub (needle : List Char) : List Char → Bool
  | [] => needle.isEmpty
  | c :: rest => leadsWith needle (c :: rest) || containsSub needle rest

/-- Python `str.lower()` on the ASCII/Devanagari inputs in scope. -/
def lowerChars (s : String) : List Char := s.data.map Char.toLower

/-- The meridiem marker captured by `(am|pm|AM|PM)` (Python lowercases the
capture before use, so only the am/pm distinction survives). -/
inductive Meridiem
  | am
  | pm
deriving DecidableEq

/-- Match one of the alternatives `am|pm|AM|PM` at the head. -/
def matchMeridiem (l : List Char) : Option Meridiem :=
  match matchLit ['a', 'm'] l with
  | some _ => some .am
  | none =>
    match matchLit ['p', 'm'] l with
    | some _ => some .pm
    | none =>
      match matchLit ['A', 'M'] l with
      | some _ => some .am
      | none =>
        match matchLit ['P', 'M'] l with
        | some _ => some .pm
        | none => none

/-- The unit captured by `(hour|minute|min|hr)` in declaration order. -/
inductive RelUnit
  | hour
  | minute
  | justMin
  | hr
deriving DecidableEq

/-- Match one of `hour|minute|min|hr` at the head, in regex alternation order
(the trailing `s?` of the pattern can never fail and captures nothing). -/
def matchUnit (l : List Char) : Option RelUnit :=
  match matchLit ['h', 'o', 'u', 'r'] l with
  | some _ => some .hour
  | none =>
    match matchLit ['m', 'i', 'n', 'u', 't', 'e'] l with
    | some _ => some .minute
    | none =>
      match matchLit ['m', 'i', 'n'] l with
      | some _ => some .justMin
      | none =>
        match matchLit ['h', 'r'] l with
        | some _ => some .hr
        | none => none

/-- The source tests `'hour' in unit or 'hr' in unit` on the captured unit
text; over the four possible captures that is true exactly for hour and hr. -/
def relIsHour : RelUnit → Bool
  | .hour => true
  | .hr => true
  | _ => false

/-- Attempt `in\s+(\d+)\s*(hour|minute|min|hr)s?` at one position.  `\d+` is
taken maximal-munch: the alternatives all start with a letter, so shortening
the digit run can never rescue a failed attempt. -/
def matchRelAt (l : List Char) : Option (Nat × RelUnit) :=
  match matchLit ['i', 'n'] l with
  | none => none
  | some r1 =>
    match dropWs1 r1 with
    | none => none
    | some r2 =>
      let p := takeDigits r2
      if p.1.length = 0 then none
      else
        match matchUnit (dropWsAll p.2) with
        | some u => some (digitsVal p.1, u)
        | none => none

/-- Python `re.search` of the relative pattern: leftmost position wins. -/
def searchRel : List Char → Option (Nat × RelUnit)
  | [] => none
  | c :: rest =>
    match matchRelAt (c :: rest) with
    | some r => some r
    | none => searchRel rest

/-- Attempt `at\s+(\d{1,2})\s*(am|pm|AM|PM)` at one position.  A digit run of
three or more makes every backtracking choice of `\d{1,2}` land on a digit
where the meridiem alternatives must start, so the attempt fails outright. -/
def matchTimeMvpAt (l : List Char) : Option (Nat × Meridiem) :=
  match matchLit ['a', 't'] l with
  | none => none
  | some r1 =>
    match dropWs1 r1 with
    | none => none
    | some r2 =>
      let p := takeDigits r2
      if p.1.length = 0 || 2 < p.1.length then none
      else
        match matchMeridiem (dropWsAll p.2) with
        | some m => some (digitsVal p.1, m)
        | none => none

/-- Python `re.search` of mvp_bot's absolute-clock pattern (on the raw text: the
pattern is compiled without IGNORECASE, so `at` must be lowercase while the
meridiem alternation lists both casings). -/
def searchTimeMvp : List Char → Option (Nat × Meridiem)
  | [] => none
  | c :: rest =>
    match matchTimeMvpAt (c :: rest) with
    | some r => some r
    | none => searchTimeMvp rest

/-- Midnight of the calendar day containing `t` (the date kept by
`now.replace(hour=..., minute=0, second=0, microsecond=0)`). -/
def dayStart (t : Nat) : Nat := t / 86400 * 86400

/-- Hour conversion of mvp_bot's parse_reminder (lines 421-424): PM adds 12
unless the hour is 12; AM maps 12 to 0; otherwise the hour stands. -/
def mvpConvert (p : Meridiem) (h : Nat) : Nat :=
  if p = Meridiem.pm ∧ h ≠ 12 then h + 12
  else if p = Meridiem.am ∧ h = 12 then 0
  else h

/-- Outcome of PersonalAssistant.parse_reminder.  `hourError` is the uncaught
ValueError raised by `now.replace(hour=h)` when the converted hour exceeds 23
(it propagates out of the parser to the webhook's catch-all). -/
inductive ParseTimeResult
  | noMatch
  | ok (fire : Nat)
  | hourError
deriving DecidableEq

/-- Embeds PersonalAssistant.parse_reminder (src/mvp_bot.py lines 395-476),
the time computation.  The residual-task extraction of lines 436-473 is
elided: whenever a time parses it always yields a non-empty task string (the
source substitutes the placeholder "your reminder" when stripping empties the
text), so the caller's scheduling decision depends only on the time result.
The relative pattern is searched on the lowercased text, the absolute pattern
on the raw text, exactly as in the source; the relative branch takes the
`if`, the absolute branch the `elif`. -/
def parse_reminder (text : String) (now : Nat) : ParseTimeResult :=
  let tl := lowerChars text
  match searchRel tl with
  | some (amount, u) =>
      if relIsHour u then .ok (now + amount * 3600) else .ok (now + amount * 60)
  | none =>
    match searchTimeMvp text.data with
    | some (h, per) =>
        let h24 := mvpConvert per h
        if h24 ≤ 23 then
          let t0 := dayStart now + h24 * 3600
          if containsSub ['t', 'o', 'm', 'o', 'r', 'r', 'o', 'w'] tl then .ok (t0 + 86400)
          else if t0 ≤ now then .ok (t0 + 86400)
          else .ok t0
        else .hourError
    | none => .noMatch

example : parse_reminder "remind me in 30 minutes to call mom" 1000 = .ok 2800 := by decide

example : parse_reminder "remind me tomorrow at 9 am to submit report" 36000 = .ok (9 * 3600 + 86400) := by decide

example : parse_reminder "remind me at 5 pm to call mom" 0 = .ok (17 * 3600) := by decide

example : parse_reminder "remind me at 13 pm" 0 = .hourError := by decide

example : parse_reminder "remind me to water the plants" 0 = .noMatch := by decide

/-- Attempt `(\d{1,2})\s*(am|pm|AM|PM)` of appv1's ReminderService at one
position (same maximal-munch argument as for the mvp pattern). -/
def matchTimeAppAt (l : List Char) : Option (Nat × Meridiem) :=
  let p := takeDigits l
  if p.1.length = 0 || 2 < p.1.length then none
  else
    match matchMeridiem (dropWsAll p.2) with
    | some m => some (digitsVal p.1, m)
    | none => none

/-- Python `re.search` of appv1's bare clock pattern on the raw text. -/
def searchTimeApp : List Char → Option (Nat × Meridiem)
  | [] => none
  | c :: rest =>
    match matchTimeAppAt (c :: rest) with
    | some r => some r
    | none => searchTimeApp rest

/-- Hour conversion of appv1's ReminderService.parse_reminder (line 437): only
the PM rule is applied; there is no AM clause, so hour 12 AM stays 12. -/
def appv1Convert (p : Meridiem) (h : Nat) : Nat :=
  if p = Meridiem.pm ∧ h ≠ 12 then h + 12 else h

/-- Python `any(word in text.lower() for word in ['tomorrow', 'कल', 'kal'])`. -/
def tomorrowAny (tl : List Char) : Bool :=
  containsSub ['t', 'o', 'm', 'o', 'r', 'r', 'o', 'w'] tl
  || containsSub "कल".data tl
  || containsSub ['k', 'a', 'l'] tl

/-- Outcome of ReminderService.parse_reminder: `failure` is the
`{'success': False}` no-match return; `hourError` the uncaught ValueError of
`now.replace(hour=h)` for h > 23. -/
inductive Appv1Parse
  | ok (fire : Nat)
  | failure
  | hourError
deriving DecidableEq

/-- Embeds ReminderService.parse_reminder (src/appv1.py lines 421-462) for
lang='en' (the 'hi' branch swaps in the Devanagari clock pattern and skips
the meridiem conversion; no claim concerns it).  Task extraction (sequential
`str.replace` of a word list) is elided: it does not affect the time.  There
is no time-already-passed rollover in this parser. -/
def appv1_parse_reminder (text : String) (now : Nat) : Appv1Parse :=
  match searchTimeApp text.data with
  | some (h, per) =>
      let h24 := appv1Convert per h
      if h24 ≤ 23 then
        let base := dayStart now + h24 * 3600
        if tomorrowAny (lowerChars text) then .ok (base + 86400) else .ok base
      else .hourError
  | none => .failure

example : appv1_parse_reminder "wake up at 12 am" 0 = .ok 43200 := by decide

example : appv1_parse_reminder "call dad at 12 pm tomorrow" 0 = .ok (43200 + 86400) := by decide

/-- The marker captured by the calendar pattern `(\d{1,2})\s*(am|pm|AM|PM|बजे)`
(Python lowercases the capture; बजे has no case). -/
inductive CalPeriod
  | am
  | pm
  | baje
deriving DecidableEq

/-- Match one of `am|pm|AM|PM|बजे` at the head, in alternation order. -/
def matchCalPeriod (l : List Char) : Option CalPeriod :=
  match matchMeridiem l with
  | some .am => some .am
  | some .pm => some .pm
  | none =>
    match matchLit "बजे".data l with
    | some _ => some .baje
    | none => none

/-- Attempt the calendar clock pattern at one position. -/
def matchTimeCalAt (l : List Char) : Option (Nat × CalPeriod) :=
  let p := takeDigits l
  if p.1.length = 0 || 2 < p.1.length then none
  else
    match matchCalPeriod (dropWsAll p.2) with
    | some m => some (digitsVal p.1, m)
    | none => none

/-- Python `re.search` of the calendar clock pattern on the raw text. -/
def searchTimeCal : List Char → Option (Nat × CalPeriod)
  | [] => none
  | c :: rest =>
    match matchTimeCalAt (c :: rest) with
    | some r => some r
    | none => searchTimeCal rest

/-- Hour conversion of CalendarService.parse_calendar_command (lines 387-390):
`period in ['pm', 'बजे']` adds 12 unless the hour is 12; `period == 'am'`
maps 12 to 0. -/
def calConvert (p : CalPeriod) (h : Nat) : Nat :=
  if (p = CalPeriod.pm ∨ p = CalPeriod.baje) ∧ h ≠ 12 then h + 12
  else if p = CalPeriod.am ∧ h = 12 then 0
  else h

/-- The word captured by the calendar date pattern
`(tomorrow|कल|today|आज|monday|...|sunday)`; `wd i` is the weekday with
Python's Monday = 0 indexing. -/
inductive DateWord
  | tomorrowEn
  | kal
  | todayEn
  | aaj
  | wd (idx : Nat)
deriving DecidableEq

/-- Match one date-word alternative at the head, in alternation order. -/
def matchDateWordAt (l : List Char) : Option DateWord :=
  match matchLit "tomorrow".data l with
  | some _ => some .tomorrowEn
  | none =>
    match matchLit "कल".data l with
    | some _ => some .kal
    | none =>
      match matchLit "today".data l with
      | some _ => some .todayEn
      | none =>
        match matchLit "आज".data l with
        | some _ => some .aaj
        | none =>
          match matchLit "monday".data l with
          | some _ => some (.wd 0)
          | none =>
            match matchLit "tuesday".data l with
            | some _ => some (.wd 1)
            | none =>
              match matchLit "wednesday".data l with
              | some _ => some (.wd 2)
              | none =>
                match matchLit "thursday".data l with
                | some _ => some (.wd 3)
                | none =>
                  match matchLit "friday".data l with
                  | some _ => some (.wd 4)
                  | none =>
                    match matchLit "saturday".data l with
                    | some _ => some (.wd 5)
                    | none =>
                      match matchLit "sunday".data l with
                      | some _ => some (.wd 6)
                      | none => none

/-- Python `re.search` of the date-word pattern on the lowercased text. -/
def searchDateWord : List Char → Option DateWord
  | [] => none
  | c :: rest =>
    match matchDateWordAt (c :: rest) with
    | some r => some r
    | none => searchDateWord rest

/-- Python `datetime.weekday()` on the linear timeline: Monday = 0; the epoch
day is a Thursday (weekday 3). -/
def weekdayOf (t : Nat) : Nat := (t / 86400 + 3) % 7

/-- The day shift parse_calendar_command applies for a date word (lines
366-381): tomorrow words add one day, today words none, and a weekday name
advances to the next occurrence with `(target - current) % 7`, mapping 0 to a
full 7 (never same-day). -/
def dateShift (w : DateWord) (now : Nat) : Nat :=
  match w with
  | .tomorrowEn => 1
  | .kal => 1
  | .todayEn => 0
  | .aaj => 0
  | .wd idx =>
      let d := (idx + 7 - weekdayOf now) % 7
      if d = 0 then 7 else d

/-- Outcome of the calendar command parse: `failure` is the
`{'success': False}` produced by the surrounding `except` clause. -/
inductive CalResult
  | ok (t : Nat)
  | failure
deriving DecidableEq

/-- Embeds the date-and-time portion of CalendarService.parse_calendar_command
(src/appv1.py lines 320-416) for lang='en'.  Title and duration extraction
are elided (no claim depends on them).  The body runs inside a try/except
that returns success False; on this path the only raising operation is
`event_time.replace(hour=h, minute=0, second=0)` for a converted hour above
23, so that case is mapped to `failure`.  With no clock match the time
defaults to 9 AM. -/
def parse_calendar_command_time (text : String) (now : Nat) : CalResult :=
  let tl := lowerChars text
  let base : Nat :=
    match searchDateWord tl with
    | some w => now + dateShift w now * 86400
    | none => now
  match searchTimeCal text.data with
  | some (h, p) =>
      let h24 := calConvert p h
      if h24 ≤ 23 then .ok (dayStart base + h24 * 3600) else .failure
  | none => .ok (dayStart base + 9 * 3600)

example : parse_calendar_command_time "add standup to my calendar tomorrow 3 pm" 0 = .ok (86400 + 15 * 3600) := by decide

example : parse_calendar_command_time "meeting at 13 pm" 0 = .failure := by decide

example : parse_calendar_command_time "meeting on monday 2 pm" 0 = .ok (4 * 86400 + 14 * 3600) := by decide

/-- A row of mvp_bot's `reminders` table: autoincrement id, recipient phone,
task text, fire-instant (`reminder_time`), creation instant, completed flag. -/
structure RemRow where
  id : Nat
  phone : String
  task : String
  fire : Nat
  createdAt : Nat
  completed : Bool
deriving DecidableEq

/-- A row of mvp_bot's `goals` table. -/
structure GoalRow where
  id : Nat
  phone : String
  goal : String
  createdAt : Nat
  completed : Bool
deriving DecidableEq

/-- The persistent store of mvp_bot (the sqlite tables the claims touch). -/
structure DB where
  reminders : List RemRow
  goals : List GoalRow
deriving DecidableEq

/-- Modelled from the spec: the job-scheduling substrate.  The source hands
jobs to an APScheduler BackgroundScheduler (external to this repository)
through `scheduler.add_job(..., id=job_id, replace_existing=True)`; spec 4.4
states the contract: re-registering an already-pending jobId replaces its
prior registration (idempotent upsert), and each pending job is dispatched
once, at-or-after its fire-instant.  The registry is a list of
(job id, fire-instant) pairs, newest first; payloads are opaque to the
scheduler and elided. -/
structure Sched where
  jobs : List (String × Nat)
deriving DecidableEq

/-- Modelled from the spec: `add_job` with `replace_existing=True` — the entry
for the id, if any, is dropped and the new registration takes its place. -/
def addJobReplace (s : Sched) (jid : String) (fire : Nat) : Sched :=
  ⟨(jid, fire) :: s.jobs.filter (fun j => j.1 != jid)⟩

/-- Modelled from the spec: the fire-instants at which the scheduler will
dispatch an invocation for the given job id (each registered job is invoked
exactly once, at its fire-instant). -/
def dispatchesFor (s : Sched) (jid : String) : List Nat :=
  (s.jobs.filter (fun j => j.1 == jid)).map Prod.snd

/-- The scheduler registry never holds two jobs with the same id. -/
def schedWf (s : Sched) : Prop := (s.jobs.map Prod.fst).Nodup

/-- What handle_reminder answers the recipient: a confirmation after
scheduling, the clarification prompt ("I need more details to set a
reminder...") when the parse fails, or the propagated exception of the
hour-out-of-range case (which the webhook turns into a generic error). -/
inductive ReminderResponse
  | scheduled (fire : Nat)
  | needMoreDetails
  | raised
deriving DecidableEq

/-- Embeds PersonalAssistant.handle_reminder (src/mvp_bot.py lines 336-393):
on a successful parse it registers the job
`reminder_<phone>_<fire-instant>` with replace_existing=True, inserts a
reminders row (task text elided; it is always non-empty) and confirms;
otherwise it changes nothing and returns the clarification prompt. -/
def handle_reminder (db : DB) (s : Sched) (phone text : String) (now : Nat) :
    DB × Sched × ReminderResponse :=
  match parse_reminder text now with
  | .ok fire =>
      let jid := "reminder_" ++ phone ++ "_" ++ toString fire
      let row : RemRow :=
        { id := db.reminders.length + 1, phone := phone, task := "", fire := fire,
          createdAt := now, completed := false }
      (⟨db.reminders ++ [row], db.goals⟩, addJobReplace s jid fire, .scheduled fire)
  | .noMatch => (db, s, .needMoreDetails)
  | .hourError => (db, s, .raised)

/-- Take the maximal run of non-newline characters (Python `.` in `(.+)`). -/
def takeNonNl : List Char → List Char
  | [] => []
  | c :: cs => if c = '\n' then [] else c :: takeNonNl cs

/-- Strip leading and trailing whitespace (Python `str.strip()`). -/
def trimWs (l : List Char) : List Char :=
  ((dropWsAll l).reverse |> dropWsAll).reverse

/-- Attempt `done(?:\s+with)?\s+(.+)` at one position: after the literal the
greedy optional `\s+with` is tried first and abandoned if the mandatory
`\s+(.+)` cannot follow it. -/
def matchDoneAt (l : List Char) : Option (List Char) :=
  match matchLit ['d', 'o', 'n', 'e'] l with
  | none => none
  | some r1 =>
    let withTry : Option (List Char) :=
      match dropWs1 r1 with
      | none => none
      | some r2 =>
        match matchLit ['w', 'i', 't', 'h'] r2 with
        | none => none
        | some r3 =>
          match dropWs1 r3 with
          | none => none
          | some r4 =>
            let cap := takeNonNl r4
            if cap.isEmpty then none else some cap
    match withTry with
    | some cap => some cap
    | none =>
      match dropWs1 r1 with
      | none => none
      | some r2 =>
        let cap := takeNonNl r2
        if cap.isEmpty then none else some cap

/-- Python `re.search` of the done-with-task pattern on the lowercased message. -/
def searchDone : List Char → Option (List Char)
  | [] => none
  | c :: rest =>
    match matchDoneAt (c :: rest) with
    | some r => some r
    | none => searchDone rest

example : searchDone "done".data = none := by decide

example : searchDone "i am done with the essay".data = some "the essay".data := by decide

/-- Pending (not completed) reminder rows of a recipient, in rowid order. -/
def pendingRemindersFor (db : DB) (phone : String) : List RemRow :=
  db.reminders.filter (fun r => r.phone == phone && !r.completed)

/-- Pending goal rows of a recipient, in rowid order. -/
def pendingGoalsFor (db : DB) (phone : String) : List GoalRow :=
  db.goals.filter (fun g => g.phone == phone && !g.completed)

/-- SQL `ORDER BY reminder_time LIMIT 1`: the row with the least fire-instant
(the first such row when instants tie; the source leaves ties to sqlite). -/
def earliestByFire : List RemRow → Option RemRow
  | [] => none
  | r :: rest =>
    match earliestByFire rest with
    | none => some r
    | some b => if b.fire < r.fire then some b else some r

/-- SQL `ORDER BY created_at DESC LIMIT 1` over goals: the row with the greatest
creation instant (the first such row on ties). -/
def latestGoalByCreated : List GoalRow → Option GoalRow
  | [] => none
  | g :: rest =>
    match latestGoalByCreated rest with
    | none => some g
    | some b => if g.createdAt < b.createdAt then some b else some g

/-- The row with the greatest creation instant among reminder rows. -/
def latestRemByCreated : List RemRow → Option RemRow
  | [] => none
  | r :: rest =>
    match latestRemByCreated rest with
    | none => some r
    | some b => if r.createdAt < b.createdAt then some b else some r

/-- Modelled from the spec: the acknowledgement-resolution policy of 4.5 and
design note 9 — a bare completion acknowledgement is resolved against "the
most recently created, not-yet-completed reminder for that recipient".  Used
only to compare the source's selection with the spec's required policy. -/
def mostRecentCreatedPending (db : DB) (phone : String) : Option RemRow :=
  latestRemByCreated (pendingRemindersFor db phone)

/-- What handle_completion did: `acknowledged` echoes a named task without
touching the store; the two `marked` forms record which row was updated;
`askWhat` is the "what did you complete?" prompt. -/
inductive CompletionResult
  | acknowledged (named : List Char)
  | markedReminder (rid : Nat)
  | markedGoal (gid : Nat)
  | askWhat
deriving DecidableEq

/-- Set the completed flag of one reminder row (`UPDATE reminders SET
completed = 1 WHERE id = ?`). -/
def markReminderCompleted (db : DB) (rid : Nat) : DB :=
  ⟨db.reminders.map (fun r => if r.id == rid then { r with completed := true } else r),
   db.goals⟩

/-- Set the completed flag of one goal row. -/
def markGoalCompleted (db : DB) (gid : Nat) : DB :=
  ⟨db.reminders,
   db.goals.map (fun g => if g.id == gid then { g with completed := true } else g)⟩

/-- Embeds PersonalAssistant.handle_completion (src/mvp_bot.py lines
825-914).  Branch order as in the source: a `done ... <task>` match is only
echoed (no store update); else if a pending reminder exists (selected by
`ORDER BY reminder_time LIMIT 1`) and the message contains "done", that
reminder is marked; else if a pending goal exists (selected by `ORDER BY
created_at DESC LIMIT 1`) and the message contains one of
done/completed/finished, that goal is marked; otherwise the prompt. -/
def handle_completion (db : DB) (phone msg : String) : DB × CompletionResult :=
  let ml := lowerChars msg
  let goalStep : DB × CompletionResult :=
    match latestGoalByCreated (pendingGoalsFor db phone) with
    | some g =>
        if containsSub ['d', 'o', 'n', 'e'] ml
            || containsSub "completed".data ml
            || containsSub "finished".data ml then
          (markGoalCompleted db g.id, .markedGoal g.id)
        else (db, .askWhat)
    | none => (db, .askWhat)
  match searchDone ml with
  | some cap => (db, .acknowledged (trimWs cap))
  | none =>
    match earliestByFire (pendingRemindersFor db phone),
          containsSub ['d', 'o', 'n', 'e'] ml with
    | some r, true => (markReminderCompleted db r.id, .markedReminder r.id)
    | _, _ => goalStep

/-- The visible effect of one fired check-in job: an outbound message to the
recipient carrying the check-in ordinal. -/
inductive CheckinAction
  | sendCheckin (recipient : String) (checkNumber : Nat)
deriving DecidableEq

/-- Embeds send_goal_checkin (src/mvp_bot.py lines 1079-1115).  The source
picks a phrasing variant keyed by check_number and sends it over the
messaging gateway; it performs no database read at all — in particular it
never consults the goal's completed flag.  The `db` argument is taken here
exactly to state that fact: the result is constant in it.  The randomly
chosen message text is elided; what matters to the claims is that an
outbound send always happens. -/
def send_goal_checkin (db : DB) (phone goal aname : String) (checkNumber : Nat) :
    CheckinAction :=
  .sendCheckin phone checkNumber

/-- Is the goal with this id marked completed in the store? -/
def goalCompletedIn (db : DB) (gid : Nat) : Bool :=
  db.goals.any (fun g => g.id == gid && g.completed)

/-- Python `any(word in goal_lower for word in ws)`. -/
def kwAny (ws : List String) (l : List Char) : Bool :=
  ws.any (fun w => containsSub w.data l)

/-- Embeds PersonalAssistant.determine_checkin_schedule (src/mvp_bot.py lines
610-623): an if/elif chain over keyword groups, first hit wins; hours are
exact rationals (the study cadence starts at 1.5 h). -/
def determine_checkin_schedule (goal : String) : List ℚ :=
  let gl := lowerChars goal
  if kwAny ["write", "writing", "essay", "report", "document"] gl then [2, 4, 6]
  else if kwAny ["study", "learn", "read", "chapter", "course"] gl then [3/2, 3, 5]
  else if kwAny ["exercise", "workout", "gym", "run", "walk"] gl then [3, 6, 9]
  else if kwAny ["call", "email", "contact", "reach out"] gl then [1, 2, 4]
  else [2, 4, 7]

/-- The ordered category table as the spec words it (4.3): writing, study,
exercise, communication, with their cadences. -/
def cadenceTable : List (List String × List ℚ) :=
  [(["write", "writing", "essay", "report", "document"], [2, 4, 6]),
   (["study", "learn", "read", "chapter", "course"], [3/2, 3, 5]),
   (["exercise", "workout", "gym", "run", "walk"], [3, 6, 9]),
   (["call", "email", "contact", "reach out"], [1, 2, 4])]

/-- First matching category's cadence, else the default cadence. -/
def firstCadence (l : List Char) : List (List String × List ℚ) → List ℚ
  | [] => [2, 4, 7]
  | (ws, cad) :: rest => if kwAny ws l then cad else firstCadence l rest

/-- The GoalCategorizer contract restated from the spec's words (an ordered
table scan), for comparison with the source's if/elif chain. -/
def checkinCadenceSpec (goal : String) : List ℚ :=
  firstCadence (lowerChars goal) cadenceTable

example : determine_checkin_schedule "Write my essay" = [2, 4, 6] := by decide

/-- The symbolic intents of appv1's detect_intent, plus the fallthrough
`unknown`. -/
inductive Intent
  | greeting
  | setName
  | reminder
  | schedule
  | recipe
  | calendarAdd
  | unknown
deriving DecidableEq

/-- One row of the intent table: the intent and its Hindi and English trigger
lists. -/
def IntentEntry : Type := Intent × List String × List String

instance : DecidableEq IntentEntry := by
  unfold IntentEntry
  infer_instance

/-- Embeds the `intents` mapping of detect_intent (src/appv1.py lines
542-567), in its declaration order (Python dicts iterate in insertion
order). -/
def intentTable : List IntentEntry :=
  [(.greeting, ["नमस्ते", "हेलो", "हाय", "हैलो"], ["hello", "hi", "hey", "namaste"]),
   (.setName, ["तुम्हारा नाम", "आपका नाम", "नाम है"], ["your name is", "call you", "name you"]),
   (.reminder, ["याद", "रिमाइंडर", "बजे", "कल"], ["remind", "reminder", "tomorrow", "alarm"]),
   (.schedule, ["कार्यक्रम", "आज", "कैलेंडर", "शेड्यूल"], ["schedule", "calendar", "today", "appointments"]),
   (.recipe, ["रेसिपी", "खाना", "बनाना", "व्यंजन"], ["recipe", "cook", "make", "food", "dish"]),
   (.calendarAdd, ["कैलेंडर में", "जोड़", "मीटिंग", "शेड्यूल करें"], ["add to calendar", "schedule", "add meeting", "calendar"])]

/-- Python `keywords.get(lang, keywords['en'])`: the Hindi list for 'hi', the
English list for every other language code. -/
def intentKeywords (lang : String) (e : IntentEntry) : List String :=
  if lang == "hi" then e.2.1 else e.2.2

/-- Does any trigger of the entry occur in the lowercased text? -/
def intentMatches (lang : String) (tl : List Char) (e : IntentEntry) : Bool :=
  (intentKeywords lang e).any (fun k => containsSub k.data tl)

/-- The table scan of detect_intent: first entry with a matching trigger
wins; an exhausted table yields `unknown`. -/
def detectFrom (lang : String) (tl : List Char) : List IntentEntry → Intent
  | [] => .unknown
  | e :: rest => if intentMatches lang tl e then e.1 else detectFrom lang tl rest

/-- Embeds detect_intent (src/appv1.py lines 537-574): the input is
lowercased once and the table is scanned in declaration order. -/
def detect_intent (text lang : String) : Intent :=
  detectFrom lang (lowerChars text) intentTable

/-- Whether the table entry at position k matches the text (false beyond the
table; used to state precedence claims by position). -/
def matchesIdx (lang : String) (tl : List Char) (k : Nat) : Bool :=
  match intentTable.get? k with
  | some e => intentMatches lang tl e
  | none => false

example : detect_intent "Remind me tomorrow" "en" = .reminder := by decide

example : detect_intent "please schedule my calendar" "en" = .schedule := by decide

example : detect_intent "xyzzy" "en" = .unknown := by decide

/-- Filtering for a key after filtering it away leaves nothing. -/
theorem filterSelfFilterNe (jid : String) :
    ∀ l : List (String × Nat),
      (l.filter (fun j => j.1 != jid)).filter (fun j => j.1 == jid) = []
  | [] => rfl
  | a :: l => by
    by_cases h : a.1 = jid
    · simp [List.filter_cons, h, filterSelfFilterNe jid l]
    · simp [List.filter_cons, h, filterSelfFilterNe jid l]

/-- With pairwise-distinct keys, at most one pair carries a given key. -/
theorem filterKeyLenLe (jid : String) :
    ∀ l : List (String × Nat), (l.map Prod.fst).Nodup →
      (l.filter (fun j => j.1 == jid)).length ≤ 1
  | [], _ => by simp
  | a :: l, h => by
    simp only [List.map_cons, List.nodup_cons] at h
    by_cases ha : a.1 = jid
    · have hempty : l.filter (fun j => j.1 == jid) = [] := by
        rw [List.filter_eq_nil_iff]
        intro j hj
        simp only [beq_iff_eq]
        intro hji
        exact h.1 (by rw [ha, ← hji]; exact List.mem_map_of_mem Prod.fst hj)
      simp [List.filter_cons, ha, hempty]
    · have hrec := filterKeyLenLe jid l h.2
      simpa [List.filter_cons, ha] using hrec

/-- C1: for every job id, at most one dispatch ever occurs for that id:
registering a job with an id that is already pending replaces the prior
registration, so registering the same job id twice with different
fire-instants yields exactly one eventual invocation, at the second
fire-instant.  (The scheduler substrate is the spec-modelled APScheduler
contract of 4.4; mvp_bot's handle_reminder registers with
replace_existing=True.) -/
theorem C1_job_upsert_single_dispatch :
    (∀ (s : Sched) (jid : String) (t : Nat), schedWf s → schedWf (addJobReplace s jid t))
  ∧ (∀ (s : Sched) (jid : String), schedWf s → (dispatchesFor s jid).length ≤ 1)
  ∧ ∀ (s : Sched) (jid : String) (t1 t2 : Nat),
      dispatchesFor (addJobReplace (addJobReplace s jid t1) jid t2) jid = [t2] := by
  refine ⟨?_, ?_, ?_⟩
  · intro s jid t hwf
    unfold schedWf addJobReplace at *
    simp only [List.map_cons]
    refine List.nodup_cons.mpr ⟨?_, ?_⟩
    · intro hmem
      rcases List.mem_map.mp hmem with ⟨j, hj, hfst⟩
      have hpj := List.of_mem_filter hj
      rw [hfst] at hpj
      simp at hpj
    · exact hwf.sublist ((List.filter_sublist s.jobs).map Prod.fst)
  · intro s jid hwf
    unfold dispatchesFor
    rw [List.length_map]
    exact filterKeyLenLe jid s.jobs hwf
  · intro s jid t1 t2
    simp [dispatchesFor, addJobReplace, List.filter_cons, filterSelfFilterNe]

/-- Witness for C1 at a concrete scheduler state: double registration of one
job id dispatches once, at the second fire-instant; a singleton registry
dispatches its id at most once. -/
theorem C1_job_upsert_single_dispatch_witness :
    dispatchesFor
        (addJobReplace (addJobReplace ⟨[]⟩ "reminder_p_100" 100) "reminder_p_100" 200)
        "reminder_p_100" = [200]
  ∧ (dispatchesFor ⟨[("reminder_p_100", 100)]⟩ "reminder_p_100").length ≤ 1 :=
  ⟨C1_job_upsert_single_dispatch.2.2 ⟨[]⟩ "reminder_p_100" 100 200,
   C1_job_upsert_single_dispatch.2.1 ⟨[("reminder_p_100", 100)]⟩ "reminder_p_100"
     (by simp [schedWf])⟩

/-- C8: the categorizer scans the keyword groups in the fixed order writing,
study, exercise, communication, returns the first matching category's
cadence (writing [2,4,6], study [1.5,3,5], exercise [3,6,9], communication
[1,2,4] hours), falls back to [2,4,7], and in particular maps "write my
essay" to the writing cadence. -/
theorem C8_goal_cadence :
    (∀ goal : String, determine_checkin_schedule goal = checkinCadenceSpec goal)
  ∧ determine_checkin_schedule "write my essay" = [2, 4, 6] :=
  ⟨fun _ => rfl, by decide⟩

/-- C9: a reminder-intent message in which neither the relative-duration
pattern nor the absolute-clock pattern matches leaves the store and the
scheduler unchanged and yields the clarification prompt (the
"I need more details" reply), not an error. -/
theorem C9_parse_failure_no_side_effect (db : DB) (s : Sched) (phone text : String)
    (now : Nat)
    (hrel : searchRel (lowerChars text) = none)
    (htime : searchTimeMvp text.data = none) :
    handle_reminder db s phone text now = (db, s, ReminderResponse.needMoreDetails) := by
  simp [handle_reminder, parse_reminder, hrel, htime]

/-- Witness for C9: a concrete reminder request with no recognizable time. -/
theorem C9_parse_failure_no_side_effect_witness :
    handle_reminder ⟨[], []⟩ ⟨[]⟩ "whatsapp:+15550100" "remind me to water the plants" 0
      = (⟨[], []⟩, ⟨[]⟩, ReminderResponse.needMoreDetails) :=
  C9_parse_failure_no_side_effect ⟨[], []⟩ ⟨[]⟩ "whatsapp:+15550100"
    "remind me to water the plants" 0 (by decide) (by decide)

/-- The table scan returns the intent of the first matching entry. -/
theorem detectFromFirst (lang : String) (tl : List Char) :
    ∀ (l : List IntentEntry) (i : Nat) (e : IntentEntry),
      l.get? i = some e → intentMatches lang tl e = true →
      (∀ k, k < i → ∀ f, l.get? k = some f → intentMatches lang tl f = false) →
      detectFrom lang tl l = e.1
  | [], i, e, hget, _, _ => by simp at hget
  | a :: rest, 0, e, hget, hm, _ => by
      rw [List.get?_cons_zero] at hget
      injection hget with hae
      subst hae
      simp [detectFrom, hm]
  | a :: rest, i + 1, e, hget, hm, hmin => by
      have ha : intentMatches lang tl a = false := hmin 0 (Nat.succ_pos i) a rfl
      simp only [detectFrom, ha, Bool.false_eq_true, if_false]
      exact detectFromFirst lang tl rest i e (by simpa using hget) hm
        (fun k hk f hf => hmin (k + 1) (by omega) f (by simpa using hf))

/-- The table scan falls through to `unknown` when nothing matches. -/
theorem detectFromNone (lang : String) (tl : List Char) :
    ∀ l : List IntentEntry,
      (∀ e ∈ l, intentMatches lang tl e = false) → detectFrom lang tl l = .unknown
  | [], _ => rfl
  | a :: rest, h => by
      simp only [detectFrom, h a (by simp), Bool.false_eq_true, if_false]
      exact detectFromNone lang tl rest (fun e he => h e (by simp [he]))

/-- C7: the classifier scans the trigger table in fixed declaration order and
returns the intent of the first position whose trigger occurs
(case-insensitively) in the text — in particular, with triggers at two
positions i < j and nothing before i, the intent at position i — and returns
`unknown` when no trigger matches. -/
theorem C7_intent_precedence :
    (∀ (lang text : String) (i j : Nat) (e : IntentEntry),
        i < j →
        intentTable.get? i = some e →
        intentMatches lang (lowerChars text) e = true →
        matchesIdx lang (lowerChars text) j = true →
        (∀ k, k < i → matchesIdx lang (lowerChars text) k = false) →
        detect_intent text lang = e.1)
  ∧ ∀ lang text : String,
      (∀ k, matchesIdx lang (lowerChars text) k = false) →
      detect_intent text lang = Intent.unknown := by
  constructor
  · intro lang text i j e _ hget hm _ hmin
    unfold detect_intent
    apply detectFromFirst lang (lowerChars text) intentTable i e hget hm
    intro k hk f hf
    have hmk := hmin k hk
    unfold matchesIdx at hmk
    rw [hf] at hmk
    exact hmk
  · intro lang text h
    unfold detect_intent
    apply detectFromNone
    intro e he
    rcases List.mem_iff_get?.mp he with ⟨n, hn⟩
    have hmn := h n
    unfold matchesIdx at hmn
    rw [hn] at hmn
    exact hmn

/-- Witness for C7: "remind schedule" carries triggers of the intents at
table positions 2 (reminder) and 3 (schedule) and of nothing earlier; the
classifier returns the position-2 intent. -/
theorem C7_intent_precedence_witness :
    detect_intent "remind schedule" "en" = Intent.reminder := by
  have h := C7_intent_precedence.1 "en" "remind schedule" 2 3 _
      (by omega) rfl (by decide) (by decide) ?_
  · exact h
  · intro k hk
    interval_cases k
    · decide
    · decide

/-- C2: in the absolute-clock branch an instant composed at-or-before `now`
is rolled forward by exactly one day, and an explicit "tomorrow" advances by
exactly one day with no further rollover (so a passed clock time with
"tomorrow" moves one day, not two); a strictly future composed instant is
kept as is. -/
theorem C2_absolute_rollover (text : String) (now hr : Nat) (per : Meridiem)
    (hrel : searchRel (lowerChars text) = none)
    (htime : searchTimeMvp text.data = some (hr, per))
    (hh : mvpConvert per hr ≤ 23) :
    (containsSub ['t', 'o', 'm', 'o', 'r', 'r', 'o', 'w'] (lowerChars text) = true →
        parse_reminder text now
          = .ok (dayStart now + mvpConvert per hr * 3600 + 86400))
  ∧ (containsSub ['t', 'o', 'm', 'o', 'r', 'r', 'o', 'w'] (lowerChars text) = false →
        dayStart now + mvpConvert per hr * 3600 ≤ now →
        parse_reminder text now
          = .ok (dayStart now + mvpConvert per hr * 3600 + 86400))
  ∧ (containsSub ['t', 'o', 'm', 'o', 'r', 'r', 'o', 'w'] (lowerChars text) = false →
        now < dayStart now + mvpConvert per hr * 3600 →
        parse_reminder text now = .ok (dayStart now + mvpConvert per hr * 3600)) := by
  refine ⟨fun htom => ?_, fun htom hle => ?_, fun htom hgt => ?_⟩
  · simp [parse_reminder, hrel, htime, hh, htom]
  · simp [parse_reminder, hrel, htime, hh, htom, hle]
  · have hnle : ¬ (dayStart now + mvpConvert per hr * 3600 ≤ now) := by omega
    simp [parse_reminder, hrel, htime, hh, htom, hnle]

/-- Witness for C2: "tomorrow at 9 am" with now = 10:00 of day 0 (the clock
time has already passed) fires at 9:00 of day 1 — one day, not two. -/
theorem C2_absolute_rollover_witness :
    parse_reminder "submit report tomorrow at 9 am" 36000 = .ok 118800 := by
  have h := (C2_absolute_rollover "submit report tomorrow at 9 am" 36000 9 Meridiem.am
      (by decide) (by decide) (by decide)).1 (by decide)
  exact h

/-- C6 counterexample: "in 0 minutes" matches the relative-duration pattern
(`\d+` admits 0) yet the produced fire-instant equals `now` — it is not in
the future, contradicting the claim's "the result is always in the
future". -/
theorem C6_relative_counterexample :
    searchRel (lowerChars "remind me in 0 minutes to stretch") = some (0, RelUnit.minute)
  ∧ parse_reminder "remind me in 0 minutes to stretch" 1000 = .ok 1000
  ∧ ¬ (1000 < 1000) :=
  ⟨by decide, by decide, by omega⟩

/-- C6 amended: a relative-duration match yields exactly now + duration,
taking precedence over any absolute-clock match in the same text and never
receiving the one-day rollover; the result is never before now, and it is
strictly in the future whenever the matched amount is positive. -/
theorem C6_relative_precedence (text : String) (now amount : Nat) (u : RelUnit)
    (hrel : searchRel (lowerChars text) = some (amount, u)) :
    parse_reminder text now = .ok (now + amount * (if relIsHour u then 3600 else 60))
  ∧ now ≤ now + amount * (if relIsHour u then 3600 else 60)
  ∧ (0 < amount → now < now + amount * (if relIsHour u then 3600 else 60)) := by
  refine ⟨?_, Nat.le_add_right _ _, fun ha => ?_⟩
  · cases hru : relIsHour u <;> simp [parse_reminder, hrel, hru]
  · have hpos : 0 < amount * (if relIsHour u then 3600 else 60) := by
      cases relIsHour u <;> simp <;> omega
    omega

/-- Witness for C6: the relative branch wins over the absolute clock match
present in the same text, firing at now + 30 min. -/
theorem C6_relative_precedence_witness :
    parse_reminder "remind me in 30 minutes to call mom at 5 pm" 1000 = .ok 2800
  ∧ 1000 < 2800 := by
  have h := C6_relative_precedence "remind me in 30 minutes to call mom at 5 pm" 1000 30
      RelUnit.minute (by decide)
  exact ⟨h.1, h.2.2 (by omega)⟩

/-- C5 counterexample: appv1's ReminderService hour conversion has no AM
clause, so a 12 AM clock keeps hour 12 (noon) where the claim requires hour
0 (midnight): parsing "at 12 am" at now = 0 yields 43200 s (12:00), not 0. -/
theorem C5_meridiem_counterexample :
    appv1Convert Meridiem.am 12 = 12
  ∧ (12 : Nat) ≠ 0
  ∧ appv1_parse_reminder "wake up at 12 am" 0 = Appv1Parse.ok 43200 := by
  decide

/-- C5 amended: mvp_bot's conversion follows the full rule (PM adds 12 unless
hour is 12; AM maps 12 to 0), appv1's ReminderService applies only the PM
rule (AM leaves every hour unchanged, including 12), and in both parsers the
composed absolute instant always has minute and second 0 (no minute is ever
captured). -/
theorem C5_meridiem_conversion :
    (∀ h : Nat, mvpConvert Meridiem.pm h = if h = 12 then 12 else h + 12)
  ∧ (∀ h : Nat, mvpConvert Meridiem.am h = if h = 12 then 0 else h)
  ∧ (∀ h : Nat, appv1Convert Meridiem.pm h = if h = 12 then 12 else h + 12)
  ∧ (∀ h : Nat, appv1Convert Meridiem.am h = h)
  ∧ (∀ (text : String) (now hr : Nat) (per : Meridiem),
      searchRel (lowerChars text) = none →
      searchTimeMvp text.data = some (hr, per) →
      mvpConvert per hr ≤ 23 →
      ∃ t, parse_reminder text now = .ok t ∧ t % 3600 = 0)
  ∧ ∀ (text : String) (now hr : Nat) (per : Meridiem),
      searchTimeApp text.data = some (hr, per) →
      appv1Convert per hr ≤ 23 →
      ∃ t, appv1_parse_reminder text now = .ok t ∧ t % 3600 = 0 := by
  refine ⟨fun h => ?_, fun h => ?_, fun h => ?_, fun h => ?_, ?_, ?_⟩
  · by_cases h12 : h = 12 <;> simp [mvpConvert, h12]
  · by_cases h12 : h = 12 <;> simp [mvpConvert, h12]
  · by_cases h12 : h = 12 <;> simp [appv1Convert, h12]
  · simp [appv1Convert]
  · intro text now hr per hrel htime hh
    by_cases htom : containsSub ['t', 'o', 'm', 'o', 'r', 'r', 'o', 'w'] (lowerChars text) = true
    · refine ⟨dayStart now + mvpConvert per hr * 3600 + 86400, ?_, ?_⟩
      · simp [parse_reminder, hrel, htime, hh, htom]
      · unfold dayStart
        omega
    · have htom2 : containsSub ['t', 'o', 'm', 'o', 'r', 'r', 'o', 'w'] (lowerChars text) = false := by
        simpa using htom
      by_cases hle : dayStart now + mvpConvert per hr * 3600 ≤ now
      · refine ⟨dayStart now + mvpConvert per hr * 3600 + 86400, ?_, ?_⟩
        · simp [parse_reminder, hrel, htime, hh, htom2, hle]
        · unfold dayStart
          omega
      · refine ⟨dayStart now + mvpConvert per hr * 3600, ?_, ?_⟩
        · simp [parse_reminder, hrel, htime, hh, htom2, hle]
        · unfold dayStart
          omega
  · intro text now hr per htime hh
    by_cases htom : tomorrowAny (lowerChars text) = true
    · refine ⟨dayStart now + appv1Convert per hr * 3600 + 86400, ?_, ?_⟩
      · simp [appv1_parse_reminder, htime, hh, htom]
      · unfold dayStart
        omega
    · have htom2 : tomorrowAny (lowerChars text) = false := by simpa using htom
      refine ⟨dayStart now + appv1Convert per hr * 3600, ?_, ?_⟩
      · simp [appv1_parse_reminder, htime, hh, htom2]
      · unfold dayStart
        omega

/-- Witness for C5 (amended): 5 PM converts to 17, and in each parser a
concrete composed instant sits on a whole hour. -/
theorem C5_meridiem_conversion_witness :
    mvpConvert Meridiem.pm 5 = 17
  ∧ (∃ t, parse_reminder "call mom at 5 pm" 0 = .ok t ∧ t % 3600 = 0)
  ∧ ∃ t, appv1_parse_reminder "wake up at 7 am" 0 = .ok t ∧ t % 3600 = 0 := by
  refine ⟨?_,
    C5_meridiem_conversion.2.2.2.2.1 "call mom at 5 pm" 0 5 Meridiem.pm
      (by decide) (by decide) (by decide),
    C5_meridiem_conversion.2.2.2.2.2 "wake up at 7 am" 0 7 Meridiem.am
      (by decide) (by decide)⟩
  have h := C5_meridiem_conversion.1 5
  simpa using h

/-- Did mvp_bot's parse produce an instant? -/
def parseOk : ParseTimeResult → Bool
  | .ok _ => true
  | _ => false

/-- Did the calendar parse produce an instant? -/
def calOk : CalResult → Bool
  | .ok _ => true
  | .failure => false

/-- C10 counterexample: "at 13 pm" matches the absolute-clock pattern, yet
the parse does not return an instant and does not fail through the no-match
branch: the converted hour 25 makes `now.replace(hour=25)` raise, so the
parse is not total over hour values outside 1-12. -/
theorem C10_hour_range_counterexample :
    searchTimeMvp "remind me at 13 pm".data = some (13, Meridiem.pm)
  ∧ parse_reminder "remind me at 13 pm" 0 = ParseTimeResult.hourError
  ∧ ParseTimeResult.hourError ≠ ParseTimeResult.noMatch := by
  decide

/-- C10 amended: hours outside 1-12 are accepted without an explicit range
check, and the possibly invalid instant propagates exactly when the
converted 24-hour value stays at most 23 (e.g. "13 am" becomes 13:00); when
the conversion exceeds 23, the instant construction raises ValueError, so
mvp_bot's parse escapes with the exception and parse_calendar_command
returns failure through its exception handler — in neither case through the
no-match branch. -/
theorem C10_hour_range_totality :
    (∀ (text : String) (now hr : Nat) (per : Meridiem),
        searchRel (lowerChars text) = none →
        searchTimeMvp text.data = some (hr, per) →
        (mvpConvert per hr ≤ 23 → parseOk (parse_reminder text now) = true)
      ∧ (23 < mvpConvert per hr → parse_reminder text now = .hourError))
  ∧ ∀ (text : String) (now hr : Nat) (p : CalPeriod),
      searchTimeCal text.data = some (hr, p) →
      (calConvert p hr ≤ 23 → calOk (parse_calendar_command_time text now) = true)
    ∧ (23 < calConvert p hr → parse_calendar_command_time text now = .failure) := by
  constructor
  · intro text now hr per hrel htime
    constructor
    · intro hh
      simp only [parse_reminder, hrel, htime, if_pos hh]
      split_ifs <;> simp [parseOk]
    · intro hh
      have hn : ¬ (mvpConvert per hr ≤ 23) := by omega
      simp [parse_reminder, hrel, htime, hn]
  · intro text now hr p htime
    constructor
    · intro hh
      simp [parse_calendar_command_time, htime, hh, calOk]
    · intro hh
      have hn : ¬ (calConvert p hr ≤ 23) := by omega
      simp [parse_calendar_command_time, htime, hn]

/-- Witness for C10 (amended): "13 am" propagates as 13:00 from mvp_bot's
parser, while the calendar parser turns "13 pm" (hour 25) into failure. -/
theorem C10_hour_range_totality_witness :
    parseOk (parse_reminder "call you at 13 am" 0) = true
  ∧ parse_calendar_command_time "meeting at 13 pm" 0 = CalResult.failure :=
  ⟨(C10_hour_range_totality.1 "call you at 13 am" 0 13 Meridiem.am
      (by decide) (by decide)).1 (by decide),
   (C10_hour_range_totality.2 "meeting at 13 pm" 0 13 CalPeriod.pm
      (by decide)).2 (by decide)⟩

/-- C3: code-bug evidence.  A bare "done" from a recipient with no pending
reminder and one pending goal marks that goal completed, yet a check-in job
that fires afterwards still produces an outbound send: send_goal_checkin
never reads the goal's completed flag (its result is constant in the store),
where the claim requires the handler to consult it and suppress the
message. -/
theorem C3_checkin_not_suppressed :
    (handle_completion ⟨[], [⟨1, "p1", "write the essay", 0, false⟩]⟩ "p1" "done").2
      = CompletionResult.markedGoal 1
  ∧ goalCompletedIn
      (handle_completion ⟨[], [⟨1, "p1", "write the essay", 0, false⟩]⟩ "p1" "done").1 1
      = true
  ∧ send_goal_checkin
      (handle_completion ⟨[], [⟨1, "p1", "write the essay", 0, false⟩]⟩ "p1" "done").1
      "p1" "write the essay" "Assistant" 2
      = CheckinAction.sendCheckin "p1" 2 := by
  decide

/-- C4: code-bug evidence.  With two pending reminders — id 1 created at 100
firing at 500, id 2 created later (200) firing at 900 — a bare "done" marks
id 1, the row selected by `ORDER BY reminder_time LIMIT 1` (the soonest-due
one), while the claim and the spec's policy require the most recently
created pending reminder, id 2. -/
theorem C4_bare_done_marks_soonest_due :
    (handle_completion
        ⟨[⟨1, "p2", "email the team", 500, 100, false⟩,
          ⟨2, "p2", "pack for the trip", 900, 200, false⟩], []⟩ "p2" "done").2
      = CompletionResult.markedReminder 1
  ∧ mostRecentCreatedPending
      ⟨[⟨1, "p2", "email the team", 500, 100, false⟩,
        ⟨2, "p2", "pack for the trip", 900, 200, false⟩], []⟩ "p2"
      = some ⟨2, "p2", "pack for the trip", 900, 200, false⟩
  ∧ (1 : Nat) ≠ 2 := by
  decide

end Assist
